import Mathlib

/-!
Verification of the replica-placement control loop of a range-partitioned
distributed store.

The development shallowly embeds:
* `storage/replicate_queue.go` — `shouldQueue`, `process`, and the constant
  queue configuration (`needsLeaderLease`, `acceptsUnsplitRanges`, `timer`);
* `storage/simulation/store.go` — `newStore`, `getDesc`, `getCapacity`,
  `gossipStore`;
* `server/status/feed.go` — `NodeEventFeed.CallComplete`.

External collaborators that are not part of the visible source (the
allocator's `ComputeAction`/`computeQuorum`, the store pool's
`deadReplicas`, the gossip key constructor) are modelled from the spec and
marked so in their doc comments.  Calls whose results depend on cluster
state outside the embedded snapshot (`AllocateTarget`, `RemoveTarget`,
`RebalanceTarget`, `ChangeReplicas` success, `ComputeSplitKeys`,
`GetZoneConfigForKey`, `ShouldRebalance`) are passed to the embedded
functions as explicit parameters, so theorems quantify over every possible
answer of those collaborators.
-/

namespace Crdb

/-- A replica of a range: the (NodeID, StoreID) pair, as in
`proto.Replica`. -/
structure Replica where
  nodeID : Int
  storeID : Int
deriving DecidableEq, Repr

/-- A range descriptor: key bounds plus the ordered replica list, as in
`proto.RangeDescriptor` (only the fields the replicate queue reads). -/
structure RangeDescriptor where
  startKey : Nat
  endKey : Nat
  replicas : List Replica
deriving DecidableEq, Repr

/-- A zone configuration: the list of replica attribute constraints; its
length is the desired replication factor, as in `config.ZoneConfig`. -/
structure ZoneConfig where
  replicaAttrs : List (List Nat)
deriving DecidableEq, Repr

/-- Modelled from the spec: the store pool's eventually-consistent liveness
view (`storage.StorePool`, not under src/).  Only the classification of a
store as Dead is consumed by the replicate queue. -/
structure StorePool where
  isDead : Int → Bool

/-- Modelled from the spec: `storePool.deadReplicas` (not under src/)
returns the subset of the given replicas whose store is currently
classified Dead. -/
def deadReplicas (pool : StorePool) (replicas : List Replica) : List Replica :=
  replicas.filter (fun r => pool.isDead r.storeID)

/-- Modelled from the spec: `computeQuorum` (not under src/): for a replica
set of size n, quorum is n/2 + 1 (integer division). -/
def computeQuorum (nodes : Nat) : Nat :=
  nodes / 2 + 1

/-- The number of live replicas in a list: those whose store is not Dead. -/
def liveCount (pool : StorePool) (replicas : List Replica) : Nat :=
  (replicas.filter (fun r => !(pool.isDead r.storeID))).length

/-- The allocator's possible placement actions, as in `storage.Allocator`. -/
inductive AllocatorAction where
  | noop
  | add
  | remove
  | removeDead
deriving DecidableEq, Repr

/-- Modelled from the spec: priority base making RemoveDead rank above
Add/Remove priorities. -/
def removeDeadPriorityBase : Nat := 10000

/-- Modelled from the spec: the allocator's `ComputeAction` (not under
src/).  Decision order, highest priority first: if any replica's store is
Dead and the remaining live replicas still meet quorum after its removal,
RemoveDead (priority above Add/Remove, scaling with the dead count); else
if the replica count is below the desired factor, Add (priority the
deficit); else if above, Remove (priority the surplus); else Noop. -/
def ComputeAction (pool : StorePool) (zone : ZoneConfig)
    (desc : RangeDescriptor) : AllocatorAction × Nat :=
  let deadLen := (deadReplicas pool desc.replicas).length
  let n := desc.replicas.length
  let need := zone.replicaAttrs.length
  if 0 < deadLen ∧ computeQuorum (n - 1) ≤ n - deadLen then
    (.removeDead, removeDeadPriorityBase + deadLen)
  else if n < need then
    (.add, need - n)
  else if need < n then
    (.remove, n - need)
  else
    (.noop, 0)

/-- The two membership-change directions of `repl.ChangeReplicas`
(`proto.ADD_REPLICA` / `proto.REMOVE_REPLICA`). -/
inductive ChangeType where
  | addReplica
  | removeReplica
deriving DecidableEq, Repr

/-- The errors `process` can return, named after the spec's taxonomy. -/
inductive ProcessError where
  | policyLookupFailure
  | quorumViolation
  | noSuitableStore
  | removeTargetFailed
  | changeReplicasFailed
deriving DecidableEq, Repr

/-- The observable outcome of one `process` call: the `ChangeReplicas`
calls it issued in order, the time at which it re-offered the range via
`MaybeAdd` (if it did), and the error it returned (if any). -/
structure ProcessResult where
  changes : List (ChangeType × Replica)
  requeuedAt : Option Nat
  err : Option ProcessError
deriving DecidableEq, Repr

/-- A store descriptor, as in `proto.StoreDescriptor` (the fields used by
the embedded code). -/
structure NodeDescriptor where
  NodeID : Int
deriving DecidableEq, Repr

/-- Store capacity, as in `proto.StoreCapacity`.  `Available` is an int64
and `RangeCount` an int32 in the source; the embedded values are the
wrapped machine values. -/
structure StoreCapacity where
  Capacity : Int
  Available : Int
  RangeCount : Int
deriving DecidableEq, Repr

/-- As in `proto.StoreDescriptor` (the fields the embedded code reads). -/
structure StoreDescriptor where
  StoreID : Int
  Node : NodeDescriptor
  Capacity : StoreCapacity
deriving DecidableEq, Repr

/-- `replicateQueue.shouldQueue` from `storage/replicate_queue.go`.
`splitKeys` is the result of `sysCfg.ComputeSplitKeys(desc.StartKey,
desc.EndKey)`, `zoneLookup` the result of
`sysCfg.GetZoneConfigForKey(desc.StartKey)` (`none` = error),
`computeAction` the allocator's `ComputeAction` (the spec-modelled
`ComputeAction pool` when the allocator reads the same snapshot), and
`shouldRebalance` the result of
`rq.allocator.ShouldRebalance(repl.rm.StoreID())`. -/
def shouldQueue (splitKeys : List Nat) (zoneLookup : Option ZoneConfig)
    (computeAction : ZoneConfig → RangeDescriptor → AllocatorAction × Nat)
    (shouldRebalance : Bool) (desc : RangeDescriptor) : Bool × Nat :=
  if splitKeys.length > 0 then
    (false, 0)
  else
    match zoneLookup with
    | none => (false, 0)
    | some zone =>
      let ap := computeAction zone desc
      if ap.1 ≠ .noop then (true, ap.2)
      else (shouldRebalance, 0)

/-- `replicateQueue.process` from `storage/replicate_queue.go`.
External collaborator answers are parameters: `zoneLookup` is
`GetZoneConfigForKey` (`none` = error), `computeAction` the allocator's
`ComputeAction` (a separate store-pool consultation from the
`deadReplicas` read below, so a stale allocator snapshot is expressible;
instantiated with the spec-modelled `ComputeAction pool` when both reads
see the same snapshot), `allocateTarget` the result of
`AllocateTarget(zone.ReplicaAttrs[0], desc.Replicas, true, nil)`,
`removeTarget` the allocator's `RemoveTarget` choice function,
`rebalanceTarget` the result of `RebalanceTarget(zone.ReplicaAttrs[0],
desc.Replicas)`, `changeOk` whether a given `ChangeReplicas` call
succeeds, `thisStoreID` is `repl.rm.StoreID()`, and `clockNow` is
`rq.clock.Now()`. -/
def process (pool : StorePool) (zoneLookup : Option ZoneConfig)
    (computeAction : ZoneConfig → RangeDescriptor → AllocatorAction × Nat)
    (allocateTarget : Option StoreDescriptor)
    (removeTarget : List Replica → Option Replica)
    (rebalanceTarget : Option StoreDescriptor)
    (changeOk : ChangeType → Replica → Bool)
    (thisStoreID : Int) (clockNow : Nat)
    (desc : RangeDescriptor) : ProcessResult :=
  match zoneLookup with
  | none => ⟨[], none, some .policyLookupFailure⟩
  | some zone =>
    let action := (computeAction zone desc).1
    let dead := deadReplicas pool desc.replicas
    let quorum := computeQuorum desc.replicas.length
    let liveReplicaCount := desc.replicas.length - dead.length
    if liveReplicaCount < quorum then
      ⟨[], none, some .quorumViolation⟩
    else
      match action with
      | .add =>
        match allocateTarget with
        | none => ⟨[], none, some .noSuitableStore⟩
        | some newStore =>
          let newReplica : Replica := ⟨newStore.Node.NodeID, newStore.StoreID⟩
          if changeOk .addReplica newReplica then
            ⟨[(.addReplica, newReplica)], some clockNow, none⟩
          else
            ⟨[(.addReplica, newReplica)], none, some .changeReplicasFailed⟩
      | .remove =>
        match removeTarget desc.replicas with
        | none => ⟨[], none, some .removeTargetFailed⟩
        | some removeReplica =>
          if changeOk .removeReplica removeReplica then
            if removeReplica.storeID = thisStoreID then
              ⟨[(.removeReplica, removeReplica)], none, none⟩
            else
              ⟨[(.removeReplica, removeReplica)], some clockNow, none⟩
          else
            ⟨[(.removeReplica, removeReplica)], none, some .changeReplicasFailed⟩
      | .removeDead =>
        match dead with
        | [] => ⟨[], some clockNow, none⟩
        | d :: _ =>
          if changeOk .removeReplica d then
            ⟨[(.removeReplica, d)], some clockNow, none⟩
          else
            ⟨[(.removeReplica, d)], none, some .changeReplicasFailed⟩
      | .noop =>
        match rebalanceTarget with
        | none => ⟨[], none, none⟩
        | some rebalanceStore =>
          let rebalanceReplica : Replica :=
            ⟨rebalanceStore.Node.NodeID, rebalanceStore.StoreID⟩
          if changeOk .addReplica rebalanceReplica then
            ⟨[(.addReplica, rebalanceReplica)], some clockNow, none⟩
          else
            ⟨[(.addReplica, rebalanceReplica)], none, some .changeReplicasFailed⟩

/-- `replicateQueue.needsLeaderLease` from `storage/replicate_queue.go`. -/
def needsLeaderLease : Bool := true

/-- `replicateQueue.acceptsUnsplitRanges` from
`storage/replicate_queue.go`. -/
def acceptsUnsplitRanges : Bool := false

/-- `replicateQueueTimerDuration` from `storage/replicate_queue.go`:
zero duration, to process replication greedily. -/
def replicateQueueTimerDuration : Nat := 0

/-- `replicateQueue.timer` from `storage/replicate_queue.go`. -/
def timer : Nat := replicateQueueTimerDuration

/-! ### Simulation store (`storage/simulation/store.go`) -/

/-- Wrap an integer into the signed `w`-bit machine range, as Go's fixed
width arithmetic does on overflow. -/
def wrapInt (w : Nat) (x : Int) : Int :=
  (x + 2 ^ (w - 1)) % 2 ^ w - 2 ^ (w - 1)

/-- Go `int64` wraparound. -/
def toInt64 (x : Int) : Int := wrapInt 64 x

/-- Go `int32` wraparound (the `int32(rangeCount)` cast). -/
def toInt32 (x : Int) : Int := wrapInt 32 x

/-- `bytesPerRange` from `storage/simulation/store.go`: 64 MiB. -/
def bytesPerRange : Int := 64 * 2 ^ 20

/-- `capacityPerStore` from `storage/simulation/store.go`: 1 TiB. -/
def capacityPerStore : Int := 2 ^ 40

/-- The simulated `Store` from `storage/simulation/store.go` (the gossip
handle is modelled by `gossipStore` returning the published pair). -/
structure Store where
  desc : StoreDescriptor
deriving DecidableEq, Repr

/-- The zero value of `proto.StoreCapacity`, which a fresh Go struct
carries. -/
def emptyCapacity : StoreCapacity := ⟨0, 0, 0⟩

/-- `newStore` from `storage/simulation/store.go`: a store whose
descriptor holds the given IDs and a zero capacity. -/
def newStore (storeID : Int) (nodeDesc : NodeDescriptor) : Store :=
  ⟨{ StoreID := storeID, Node := nodeDesc, Capacity := emptyCapacity }⟩

/-- `Store.getCapacity` from `storage/simulation/store.go`, with Go's
`int64`/`int32` wraparound made explicit. -/
def getCapacity (rangeCount : Int) : StoreCapacity :=
  { Capacity := capacityPerStore
    Available := toInt64 (capacityPerStore - toInt64 (rangeCount * bytesPerRange))
    RangeCount := toInt32 rangeCount }

/-- `Store.getDesc` from `storage/simulation/store.go`: copies the stored
descriptor, overwrites the copy's capacity, and returns it.  The second
component is the store after the call (the method mutates only its local
copy). -/
def getDesc (s : Store) (rangeCount : Int) : StoreDescriptor × Store :=
  let desc := s.desc
  let desc := { desc with Capacity := getCapacity rangeCount }
  (desc, s)

/-- A gossip key.  Modelled from the spec: keys are per-store and
unique. -/
structure GossipKey where
  storeKeyID : Int
deriving DecidableEq, Repr

/-- Modelled from the spec: `gossip.MakeStoreKey` (not under src/) builds
the unique per-store gossip key from the store's ID. -/
def MakeStoreKey (storeID : Int) : GossipKey := ⟨storeID⟩

/-- `Store.gossipStore` from `storage/simulation/store.go`: recompute the
descriptor for the given range count and publish it under the store's
gossip key.  The returned pair is the (key, descriptor) handed to
`gossip.AddInfoProto`. -/
def gossipStore (s : Store) (rangeCount : Int) : GossipKey × StoreDescriptor :=
  let desc := (getDesc s rangeCount).1
  let gossipKey := MakeStoreKey desc.StoreID
  (gossipKey, desc)

/-! ### Node event feed (`server/status/feed.go`) -/

/-- Request method identifiers (`proto.Method`), abstracted as naturals. -/
abbrev Method := Nat

/-- The transaction-restart modes of `proto.TransactionRestart`. -/
inductive TransactionRestart where
  | abort
  | backoff
  | immediate
deriving DecidableEq, Repr

/-- A response error (`proto.Error`, the field `CallComplete` reads). -/
structure ProtoError where
  transactionRestart : TransactionRestart
deriving DecidableEq, Repr

/-- A response header carrying an optional error
(`proto.ResponseHeader`). -/
structure ResponseHeader where
  error : Option ProtoError
deriving DecidableEq, Repr

/-- A response (`proto.Response`: the header is all `CallComplete`
reads). -/
structure Response where
  header : ResponseHeader
deriving DecidableEq, Repr

/-- One request inside a batch; `GetInner().Method()` is its method. -/
structure InnerRequest where
  innerMethod : Method
deriving DecidableEq, Repr

/-- A request (`proto.Request`): either a plain request or a
`proto.BatchRequest` with its own method and the inner request list. -/
inductive Request where
  | plain (method : Method)
  | batch (method : Method) (requests : List InnerRequest)
deriving DecidableEq, Repr

/-- `args.Method()`. -/
def Request.method : Request → Method
  | .plain m => m
  | .batch m _ => m

/-- The events `CallComplete` can publish. -/
inductive NodeEvent where
  | callSuccess (nodeID : Int) (method : Method)
  | callError (nodeID : Int) (method : Method)
deriving DecidableEq, Repr

/-- `NodeEventFeed` from `server/status/feed.go`; the underlying
`util.Feed` is modelled as the list of events published so far, with
`Publish` appending. -/
structure NodeEventFeed where
  id : Int
  events : List NodeEvent
deriving DecidableEq, Repr

/-- The method `CallComplete` reports: `args.Method()`, except for a
`BatchRequest` with at least one inner request, where it is the first
inner request's method. -/
def callMethod (args : Request) : Method :=
  match args with
  | .plain m => m
  | .batch m [] => m
  | .batch _ (r :: _) => r.innerMethod

/-- `NodeEventFeed.CallComplete` from `server/status/feed.go`: publish a
`CallErrorEvent` when the response header carries a non-nil error whose
`TransactionRestart` is ABORT, and a `CallSuccessEvent` otherwise. -/
def CallComplete (nef : NodeEventFeed) (args : Request) (reply : Response) :
    NodeEventFeed :=
  let method := callMethod args
  match reply.header.error with
  | some e =>
    if e.transactionRestart = .abort then
      { nef with events := nef.events ++ [.callError nef.id method] }
    else
      { nef with events := nef.events ++ [.callSuccess nef.id method] }
  | none =>
    { nef with events := nef.events ++ [.callSuccess nef.id method] }

/-- The reading of claim C3 as one chained conditional: when the range
does not need splitting and it is not the case that the zone lookup
succeeds with a non-Noop action, the candidate answer is
`(shouldRebalance, 0)`.  This definition follows the claim's words and
exists only to be compared against the source's `shouldQueue`. -/
def shouldQueueClaimC3 (splitKeys : List Nat) (zoneLookup : Option ZoneConfig)
    (computeAction : ZoneConfig → RangeDescriptor → AllocatorAction × Nat)
    (shouldRebalance : Bool) (desc : RangeDescriptor) : Bool × Nat :=
  if splitKeys.length > 0 then
    (false, 0)
  else
    match zoneLookup with
    | some zone =>
      let ap := computeAction zone desc
      if ap.1 ≠ .noop then (true, ap.2)
      else (shouldRebalance, 0)
    | none => (shouldRebalance, 0)

/-! ### Counting lemmas -/

lemma length_filter_add_length_filter_not {α : Type} (p : α → Bool) (l : List α) :
    (l.filter p).length + (l.filter (fun a => !(p a))).length = l.length := by
  induction l with
  | nil => rfl
  | cons a t ih =>
    by_cases h : p a <;> simp [List.filter_cons, h] <;> omega

lemma dead_add_live (pool : StorePool) (l : List Replica) :
    (deadReplicas pool l).length + liveCount pool l = l.length := by
  have h := length_filter_add_length_filter_not
    (fun r : Replica => pool.isDead r.storeID) l
  simpa [deadReplicas, liveCount] using h

lemma liveCount_erase (pool : StorePool) (r : Replica) (l : List Replica)
    (hmem : r ∈ l) :
    liveCount pool l =
      (if pool.isDead r.storeID then 0 else 1) + liveCount pool (l.erase r) := by
  have hp := (List.perm_cons_erase hmem).filter
    (fun x => !(pool.isDead x.storeID))
  have hlen := hp.length_eq
  by_cases h : pool.isDead r.storeID <;>
    simp [liveCount, List.filter_cons, h] at hlen ⊢ <;> omega

lemma computeQuorum_mono (n : Nat) :
    computeQuorum (n - 1) ≤ computeQuorum n := by
  unfold computeQuorum
  omega

lemma deadReplicas_sublist (pool : StorePool) (l : List Replica) :
    ∀ r ∈ deadReplicas pool l, r ∈ l ∧ pool.isDead r.storeID = true := by
  intro r hr
  have := List.mem_filter.mp hr
  exact ⟨this.1, this.2⟩

/-! ### Claim theorems -/

/-- Claim C7: the replication queue plug-in's configuration is constant:
`needsLeaderLease` is always true, `acceptsUnsplitRanges` always false,
and `timer` always returns a zero duration. -/
theorem C7_constant_configuration :
    needsLeaderLease = true ∧ acceptsUnsplitRanges = false ∧ timer = 0 :=
  ⟨rfl, rfl, rfl⟩

/-- Claim C10: `getDesc` does not modify the store's stored descriptor,
and the descriptor it returns equals the stored one in every field except
`Capacity`; for a store built by `newStore`, the returned `StoreID` and
`Node` are exactly those passed at construction. -/
theorem C10_getDesc_frame (s : Store) (rangeCount : Int) :
    ((getDesc s rangeCount).2 = s ∧
      (getDesc s rangeCount).1.StoreID = s.desc.StoreID ∧
      (getDesc s rangeCount).1.Node = s.desc.Node ∧
      (getDesc s rangeCount).1.Capacity = getCapacity rangeCount) ∧
    ∀ storeID nodeDesc,
      (getDesc (newStore storeID nodeDesc) rangeCount).1.StoreID = storeID ∧
      (getDesc (newStore storeID nodeDesc) rangeCount).1.Node = nodeDesc :=
  ⟨⟨rfl, rfl, rfl, rfl⟩, fun _ _ => ⟨rfl, rfl⟩⟩

/-- Claim C9: `CallComplete` publishes exactly one event — a
`CallErrorEvent` precisely when the response header carries a non-nil
error whose `TransactionRestart` is ABORT, and a `CallSuccessEvent` in
every other case — and for a `BatchRequest` with at least one inner
request the reported method is that of the first inner request. -/
theorem C9_callComplete_publishes (nef : NodeEventFeed) (args : Request)
    (reply : Response) :
    (CallComplete nef args reply).events =
      nef.events ++
        [match reply.header.error with
          | some e =>
            if e.transactionRestart = .abort then
              NodeEvent.callError nef.id (callMethod args)
            else
              NodeEvent.callSuccess nef.id (callMethod args)
          | none => NodeEvent.callSuccess nef.id (callMethod args)] ∧
    (∀ m r rs, callMethod (.batch m (r :: rs)) = r.innerMethod) := by
  refine ⟨?_, fun _ _ _ => rfl⟩
  unfold CallComplete
  cases hre : reply.header.error with
  | none => rfl
  | some e =>
    by_cases h : e.transactionRestart = .abort <;> simp [h]

/-- Claim C3, counterexample: with no pending split keys, a failing
zone-policy lookup and `shouldRebalance` true, the source's `shouldQueue`
returns `(false, 0)` while the claim's chained reading demands
`(shouldRebalance, 0) = (true, 0)`. -/
theorem C3_counterexample :
    shouldQueue [] none (ComputeAction ⟨fun _ => false⟩) true
        ⟨0, 1, [⟨1, 1⟩]⟩ = (false, 0) ∧
      shouldQueueClaimC3 [] none (ComputeAction ⟨fun _ => false⟩) true
        ⟨0, 1, [⟨1, 1⟩]⟩ = (true, 0) := by
  decide

/-- Claim C3 (amended): if the range still has split keys, `shouldQueue`
returns `(false, 0)`; otherwise, if the zone-policy lookup fails, it
returns `(false, 0)`; otherwise, if `computeAction` returns a non-Noop
action with priority p it returns `(true, p)`, and in the Noop case it
returns `(shouldRebalance, 0)`. -/
theorem C3_shouldQueue_cases
    (computeAction : ZoneConfig → RangeDescriptor → AllocatorAction × Nat)
    (shouldRebalance : Bool) (desc : RangeDescriptor) :
    (∀ k ks zoneLookup,
      shouldQueue (k :: ks) zoneLookup computeAction shouldRebalance desc =
        (false, 0)) ∧
    shouldQueue [] none computeAction shouldRebalance desc = (false, 0) ∧
    (∀ zone, (computeAction zone desc).1 ≠ .noop →
      shouldQueue [] (some zone) computeAction shouldRebalance desc =
        (true, (computeAction zone desc).2)) ∧
    (∀ zone, (computeAction zone desc).1 = .noop →
      shouldQueue [] (some zone) computeAction shouldRebalance desc =
        (shouldRebalance, 0)) := by
  refine ⟨fun k ks zoneLookup => by simp [shouldQueue], rfl, ?_, ?_⟩
  · intro zone h
    simp [shouldQueue, h]
  · intro zone h
    simp [shouldQueue, h]

/-- Claim C3, witness: the spec's concrete scenario — desired factor 3,
two live replicas — is admitted at priority 1 (the deficit). -/
theorem C3_witness :
    shouldQueue [] (some ⟨[[], [], []]⟩) (ComputeAction ⟨fun _ => false⟩)
      false ⟨0, 1, [⟨1, 1⟩, ⟨2, 2⟩]⟩ = (true, 1) :=
  ((C3_shouldQueue_cases (ComputeAction ⟨fun _ => false⟩) false
      ⟨0, 1, [⟨1, 1⟩, ⟨2, 2⟩]⟩).2.2.1 ⟨[[], [], []]⟩ (by decide)).trans
    (by decide)

/-- Claim C2: whenever the live replica count (total minus dead) is below
the quorum n/2 + 1 of the current replica count, `process` returns an
error, issues no membership change whatsoever, and does not re-enqueue. -/
theorem C2_quorum_gate (pool : StorePool) (zoneLookup : Option ZoneConfig)
    (computeAction : ZoneConfig → RangeDescriptor → AllocatorAction × Nat)
    (allocateTarget : Option StoreDescriptor)
    (removeTarget : List Replica → Option Replica)
    (rebalanceTarget : Option StoreDescriptor)
    (changeOk : ChangeType → Replica → Bool)
    (thisStoreID : Int) (clockNow : Nat) (desc : RangeDescriptor)
    (hq : desc.replicas.length - (deadReplicas pool desc.replicas).length <
      computeQuorum desc.replicas.length) :
    (process pool zoneLookup computeAction allocateTarget removeTarget
        rebalanceTarget changeOk thisStoreID clockNow desc).changes = [] ∧
    (process pool zoneLookup computeAction allocateTarget removeTarget
        rebalanceTarget changeOk thisStoreID clockNow desc).err.isSome = true ∧
    (process pool zoneLookup computeAction allocateTarget removeTarget
        rebalanceTarget changeOk thisStoreID clockNow desc).requeuedAt =
      none := by
  cases zoneLookup with
  | none => exact ⟨rfl, rfl, rfl⟩
  | some zone => simp [process, hq]

/-- Claim C2, witness: the spec's concrete scenario — a range with three
replicas, two of them on dead stores — aborts with no change issued. -/
theorem C2_witness :
    (process ⟨fun sid => sid ≤ 2⟩ (some ⟨[[], [], []]⟩)
        (ComputeAction ⟨fun sid => sid ≤ 2⟩) none (fun rs => rs.head?) none
        (fun _ _ => true) 3 7 ⟨0, 1, [⟨1, 1⟩, ⟨2, 2⟩, ⟨3, 3⟩]⟩).changes =
      [] ∧
    (process ⟨fun sid => sid ≤ 2⟩ (some ⟨[[], [], []]⟩)
        (ComputeAction ⟨fun sid => sid ≤ 2⟩) none (fun rs => rs.head?) none
        (fun _ _ => true) 3 7
        ⟨0, 1, [⟨1, 1⟩, ⟨2, 2⟩, ⟨3, 3⟩]⟩).err.isSome = true ∧
    (process ⟨fun sid => sid ≤ 2⟩ (some ⟨[[], [], []]⟩)
        (ComputeAction ⟨fun sid => sid ≤ 2⟩) none (fun rs => rs.head?) none
        (fun _ _ => true) 3 7
        ⟨0, 1, [⟨1, 1⟩, ⟨2, 2⟩, ⟨3, 3⟩]⟩).requeuedAt = none :=
  C2_quorum_gate ⟨fun sid => sid ≤ 2⟩ (some ⟨[[], [], []]⟩)
    (ComputeAction ⟨fun sid => sid ≤ 2⟩) none (fun rs => rs.head?) none
    (fun _ _ => true) 3 7 ⟨0, 1, [⟨1, 1⟩, ⟨2, 2⟩, ⟨3, 3⟩]⟩ (by decide)

/-- Claim C5, counterexample: a range with three replicas, two of them
dead and replication factor 3, yields the Noop action; with no rebalance
target the claim demands that `process` return nil, but the quorum gate
makes it return a quorum-violation error instead. -/
theorem C5_counterexample :
    (ComputeAction ⟨fun sid => sid ≤ 2⟩ ⟨[[], [], []]⟩
        ⟨0, 1, [⟨1, 1⟩, ⟨2, 2⟩, ⟨3, 3⟩]⟩).1 = .noop ∧
    process ⟨fun sid => sid ≤ 2⟩ (some ⟨[[], [], []]⟩)
        (ComputeAction ⟨fun sid => sid ≤ 2⟩) none (fun rs => rs.head?) none
        (fun _ _ => true) 9 0 ⟨0, 1, [⟨1, 1⟩, ⟨2, 2⟩, ⟨3, 3⟩]⟩ =
      ⟨[], none, some .quorumViolation⟩ := by
  decide

/-- Claim C5 (amended): when the computed action is Noop and the quorum
gate passes: if `rebalanceTarget` returns no store, `process` returns nil
with no membership change and no re-enqueue; if it returns a store,
`process` issues an ADD toward that store's (NodeID, StoreID) and, on
success, re-enqueues the range. -/
theorem C5_noop_rebalance (pool : StorePool) (zone : ZoneConfig)
    (computeAction : ZoneConfig → RangeDescriptor → AllocatorAction × Nat)
    (allocateTarget : Option StoreDescriptor)
    (removeTarget : List Replica → Option Replica)
    (rebalanceTarget : Option StoreDescriptor)
    (changeOk : ChangeType → Replica → Bool)
    (thisStoreID : Int) (clockNow : Nat) (desc : RangeDescriptor)
    (hgate : computeQuorum desc.replicas.length ≤
      desc.replicas.length - (deadReplicas pool desc.replicas).length)
    (hnoop : (computeAction zone desc).1 = .noop) :
    (rebalanceTarget = none →
      process pool (some zone) computeAction allocateTarget removeTarget
        rebalanceTarget changeOk thisStoreID clockNow desc =
        ⟨[], none, none⟩) ∧
    (∀ s, rebalanceTarget = some s →
      (process pool (some zone) computeAction allocateTarget removeTarget
          rebalanceTarget changeOk thisStoreID clockNow desc).changes =
        [(.addReplica, ⟨s.Node.NodeID, s.StoreID⟩)] ∧
      (changeOk .addReplica ⟨s.Node.NodeID, s.StoreID⟩ = true →
        (process pool (some zone) computeAction allocateTarget removeTarget
            rebalanceTarget changeOk thisStoreID clockNow desc).requeuedAt =
          some clockNow ∧
        (process pool (some zone) computeAction allocateTarget removeTarget
            rebalanceTarget changeOk thisStoreID clockNow desc).err =
          none)) := by
  have hlt : ¬(desc.replicas.length -
      (deadReplicas pool desc.replicas).length <
      computeQuorum desc.replicas.length) := Nat.not_lt.mpr hgate
  constructor
  · intro hr
    subst hr
    simp [process, hnoop, hlt]
  · intro s hr
    subst hr
    by_cases hc : changeOk .addReplica ⟨s.Node.NodeID, s.StoreID⟩ <;>
      simp [process, hnoop, hlt, hc]

/-- Claim C5, witness: the spec's rebalancing scenario — full replica
set, no dead stores, a rebalance target on store 4 — issues an ADD toward
(4, 4) and re-enqueues at the clock time. -/
theorem C5_witness :
    (process ⟨fun _ => false⟩ (some ⟨[[], [], []]⟩)
        (ComputeAction ⟨fun _ => false⟩) none (fun rs => rs.head?)
        (some ⟨4, ⟨4⟩, emptyCapacity⟩) (fun _ _ => true) 9 3
        ⟨0, 1, [⟨1, 1⟩, ⟨2, 2⟩, ⟨3, 3⟩]⟩).changes =
      [(.addReplica, ⟨4, 4⟩)] ∧
    (process ⟨fun _ => false⟩ (some ⟨[[], [], []]⟩)
        (ComputeAction ⟨fun _ => false⟩) none (fun rs => rs.head?)
        (some ⟨4, ⟨4⟩, emptyCapacity⟩) (fun _ _ => true) 9 3
        ⟨0, 1, [⟨1, 1⟩, ⟨2, 2⟩, ⟨3, 3⟩]⟩).requeuedAt = some 3 ∧
    (process ⟨fun _ => false⟩ (some ⟨[[], [], []]⟩)
        (ComputeAction ⟨fun _ => false⟩) none (fun rs => rs.head?)
        (some ⟨4, ⟨4⟩, emptyCapacity⟩) (fun _ _ => true) 9 3
        ⟨0, 1, [⟨1, 1⟩, ⟨2, 2⟩, ⟨3, 3⟩]⟩).err = none := by
  have h := (C5_noop_rebalance ⟨fun _ => false⟩ ⟨[[], [], []]⟩
    (ComputeAction ⟨fun _ => false⟩) none (fun rs => rs.head?)
    (some ⟨4, ⟨4⟩, emptyCapacity⟩) (fun _ _ => true) 9 3
    ⟨0, 1, [⟨1, 1⟩, ⟨2, 2⟩, ⟨3, 3⟩]⟩ (by decide) (by decide)).2
    ⟨4, ⟨4⟩, emptyCapacity⟩ rfl
  exact ⟨h.1, (h.2 rfl).1, (h.2 rfl).2⟩

/-- Claim C6, counterexample: a range with four replicas, two dead and
factor 4, yields the RemoveDead action with a non-empty dead set, but the
quorum gate aborts with an error and no REMOVE is issued — contradicting
the claim's unconditional dispatch. -/
theorem C6_counterexample :
    (ComputeAction ⟨fun sid => sid ≤ 2⟩ ⟨[[], [], [], []]⟩
        ⟨0, 1, [⟨1, 1⟩, ⟨2, 2⟩, ⟨3, 3⟩, ⟨4, 4⟩]⟩).1 = .removeDead ∧
    deadReplicas ⟨fun sid => sid ≤ 2⟩ [⟨1, 1⟩, ⟨2, 2⟩, ⟨3, 3⟩, ⟨4, 4⟩] =
      [⟨1, 1⟩, ⟨2, 2⟩] ∧
    process ⟨fun sid => sid ≤ 2⟩ (some ⟨[[], [], [], []]⟩)
        (ComputeAction ⟨fun sid => sid ≤ 2⟩) none (fun rs => rs.head?) none
        (fun _ _ => true) 9 0 ⟨0, 1, [⟨1, 1⟩, ⟨2, 2⟩, ⟨3, 3⟩, ⟨4, 4⟩]⟩ =
      ⟨[], none, some .quorumViolation⟩ := by
  decide

/-- Claim C6 (amended): when the computed action is RemoveDead and the
quorum gate passes: if the store pool reports at least one dead replica,
`process` issues a REMOVE for the first dead replica (and, on success,
returns no error and re-enqueues); if the dead set is empty (stale
allocator snapshot), `process` issues no membership change and returns
nil. -/
theorem C6_removeDead_dispatch (pool : StorePool) (zone : ZoneConfig)
    (computeAction : ZoneConfig → RangeDescriptor → AllocatorAction × Nat)
    (allocateTarget : Option StoreDescriptor)
    (removeTarget : List Replica → Option Replica)
    (rebalanceTarget : Option StoreDescriptor)
    (changeOk : ChangeType → Replica → Bool)
    (thisStoreID : Int) (clockNow : Nat) (desc : RangeDescriptor)
    (hgate : computeQuorum desc.replicas.length ≤
      desc.replicas.length - (deadReplicas pool desc.replicas).length)
    (hrd : (computeAction zone desc).1 = .removeDead) :
    (deadReplicas pool desc.replicas = [] →
      process pool (some zone) computeAction allocateTarget removeTarget
        rebalanceTarget changeOk thisStoreID clockNow desc =
        ⟨[], some clockNow, none⟩) ∧
    (∀ d ds, deadReplicas pool desc.replicas = d :: ds →
      (process pool (some zone) computeAction allocateTarget removeTarget
          rebalanceTarget changeOk thisStoreID clockNow desc).changes =
        [(.removeReplica, d)] ∧
      (changeOk .removeReplica d = true →
        (process pool (some zone) computeAction allocateTarget removeTarget
            rebalanceTarget changeOk thisStoreID clockNow desc).requeuedAt =
          some clockNow ∧
        (process pool (some zone) computeAction allocateTarget removeTarget
            rebalanceTarget changeOk thisStoreID clockNow desc).err =
          none)) := by
  have hlt : ¬(desc.replicas.length -
      (deadReplicas pool desc.replicas).length <
      computeQuorum desc.replicas.length) := Nat.not_lt.mpr hgate
  constructor
  · intro hd
    rw [hd] at hlt
    simp only [List.length_nil, Nat.sub_zero] at hlt
    simp [process, hrd, hlt, hd]
  · intro d ds hd
    rw [hd] at hlt
    simp only [List.length_cons] at hlt
    by_cases hc : changeOk .removeReplica d <;>
      simp [process, hrd, hlt, hd, hc]

/-- Claim C6, witness: a stale allocator answer of RemoveDead with no
currently-dead replica makes `process` take no action and return nil. -/
theorem C6_witness :
    process ⟨fun _ => false⟩ (some ⟨[[], [], []]⟩)
        (fun _ _ => (.removeDead, 0)) none (fun rs => rs.head?) none
        (fun _ _ => true) 9 5 ⟨0, 1, [⟨1, 1⟩, ⟨2, 2⟩, ⟨3, 3⟩]⟩ =
      ⟨[], some 5, none⟩ :=
  (C6_removeDead_dispatch ⟨fun _ => false⟩ ⟨[[], [], []]⟩
    (fun _ _ => (.removeDead, 0)) none (fun rs => rs.head?) none
    (fun _ _ => true) 9 5 ⟨0, 1, [⟨1, 1⟩, ⟨2, 2⟩, ⟨3, 3⟩]⟩ (by decide)
    rfl).1 rfl

/-- Claim C4: when `process` dispatches at least one membership change
and returns without error, its re-enqueue time is either absent or the
current clock time, and it is absent exactly when the computed action was
Remove and the single dispatched change removes the replica residing on
this store. -/
theorem C4_requeue_policy (pool : StorePool) (zone : ZoneConfig)
    (computeAction : ZoneConfig → RangeDescriptor → AllocatorAction × Nat)
    (allocateTarget : Option StoreDescriptor)
    (removeTarget : List Replica → Option Replica)
    (rebalanceTarget : Option StoreDescriptor)
    (changeOk : ChangeType → Replica → Bool)
    (thisStoreID : Int) (clockNow : Nat) (desc : RangeDescriptor) :
    ∀ res, res = process pool (some zone) computeAction allocateTarget
        removeTarget rebalanceTarget changeOk thisStoreID clockNow desc →
      res.err = none → res.changes ≠ [] →
        (res.requeuedAt = some clockNow ∨ res.requeuedAt = none) ∧
        (res.requeuedAt = none ↔
          ((computeAction zone desc).1 = .remove ∧
            ∃ r, res.changes = [(ChangeType.removeReplica, r)] ∧
              r.storeID = thisStoreID)) := by
  intro res hres herr hch
  by_cases hgate : desc.replicas.length -
      (deadReplicas pool desc.replicas).length <
      computeQuorum desc.replicas.length
  · rw [hres] at herr
    simp [process, hgate] at herr
  · cases hact : (computeAction zone desc).1 with
    | noop =>
      cases rebalanceTarget with
      | none =>
        rw [hres] at hch
        simp [process, hgate, hact] at hch
      | some s =>
        by_cases hc : changeOk .addReplica ⟨s.Node.NodeID, s.StoreID⟩
        · subst hres
          simp [process, hgate, hact, hc]
        · rw [hres] at herr
          simp [process, hgate, hact, hc] at herr
    | add =>
      cases allocateTarget with
      | none =>
        rw [hres] at herr
        simp [process, hgate, hact] at herr
      | some s =>
        by_cases hc : changeOk .addReplica ⟨s.Node.NodeID, s.StoreID⟩
        · subst hres
          simp [process, hgate, hact, hc]
        · rw [hres] at herr
          simp [process, hgate, hact, hc] at herr
    | remove =>
      cases hrt : removeTarget desc.replicas with
      | none =>
        rw [hres] at herr
        simp [process, hgate, hact, hrt] at herr
      | some r =>
        by_cases hc : changeOk .removeReplica r
        · by_cases hs : r.storeID = thisStoreID
          · subst hres
            simp [process, hgate, hact, hrt, hc, hs]
          · subst hres
            simp [process, hgate, hact, hrt, hc, hs]
        · rw [hres] at herr
          simp [process, hgate, hact, hrt, hc] at herr
    | removeDead =>
      cases hd : deadReplicas pool desc.replicas with
      | nil =>
        rw [hres] at hch
        rw [hd] at hgate
        simp only [List.length_nil, Nat.sub_zero] at hgate
        simp [process, hgate, hact, hd] at hch
      | cons d ds =>
        rw [hd] at hgate
        simp only [List.length_cons] at hgate
        by_cases hc : changeOk .removeReplica d
        · subst hres
          simp [process, hgate, hact, hd, hc]
        · rw [hres] at herr
          simp [process, hgate, hact, hd, hc] at herr

/-- Claim C4, witness: removing the replica that resides on this store
returns nil without re-enqueueing. -/
theorem C4_witness :
    (process ⟨fun _ => false⟩ (some ⟨[[], []]⟩)
        (ComputeAction ⟨fun _ => false⟩) none (fun rs => rs.head?) none
        (fun _ _ => true) 1 4 ⟨0, 1, [⟨1, 1⟩, ⟨2, 2⟩, ⟨3, 3⟩]⟩).requeuedAt =
      none :=
  ((C4_requeue_policy ⟨fun _ => false⟩ ⟨[[], []]⟩
      (ComputeAction ⟨fun _ => false⟩) none (fun rs => rs.head?) none
      (fun _ _ => true) 1 4 ⟨0, 1, [⟨1, 1⟩, ⟨2, 2⟩, ⟨3, 3⟩]⟩
      (process ⟨fun _ => false⟩ (some ⟨[[], []]⟩)
        (ComputeAction ⟨fun _ => false⟩) none (fun rs => rs.head?) none
        (fun _ _ => true) 1 4 ⟨0, 1, [⟨1, 1⟩, ⟨2, 2⟩, ⟨3, 3⟩]⟩) rfl
      (by decide) (by decide)).2).mpr ⟨by decide, ⟨1, 1⟩, by decide, rfl⟩

/-- If the quorum gate passes and the spec-modelled allocator reports
Remove for the same snapshot, then no replica of the range is on a dead
store (a dead replica passing the gate would have produced RemoveDead). -/
lemma computeAction_remove_no_dead (pool : StorePool) (zone : ZoneConfig)
    (desc : RangeDescriptor)
    (hgate : computeQuorum desc.replicas.length ≤
      desc.replicas.length - (deadReplicas pool desc.replicas).length)
    (hact : (ComputeAction pool zone desc).1 = .remove) :
    (deadReplicas pool desc.replicas).length = 0 := by
  by_contra h
  have hdl : 0 < (deadReplicas pool desc.replicas).length :=
    Nat.pos_of_ne_zero h
  have hcond : 0 < (deadReplicas pool desc.replicas).length ∧
      computeQuorum (desc.replicas.length - 1) ≤
        desc.replicas.length - (deadReplicas pool desc.replicas).length :=
    ⟨hdl, le_trans (computeQuorum_mono desc.replicas.length) hgate⟩
  simp only [ComputeAction] at hact
  rw [if_pos hcond] at hact
  simp at hact

/-- Claim C1 (amended): for every range descriptor with at least two
replicas and every store-pool state, with the allocator's action computed
from the same snapshot and `removeTarget` returning a member of the
replica set, `process` never issues a REMOVE whose resulting live replica
count falls below the quorum (n-1)/2 + 1 of the replica set after the
removal (n the replica count before it). -/
theorem C1_quorum_preserved (pool : StorePool)
    (zoneLookup : Option ZoneConfig)
    (allocateTarget : Option StoreDescriptor)
    (removeTarget : List Replica → Option Replica)
    (rebalanceTarget : Option StoreDescriptor)
    (changeOk : ChangeType → Replica → Bool)
    (thisStoreID : Int) (clockNow : Nat) (desc : RangeDescriptor)
    (hremT : ∀ r, removeTarget desc.replicas = some r → r ∈ desc.replicas)
    (hn : 2 ≤ desc.replicas.length) :
    ∀ r, (ChangeType.removeReplica, r) ∈
        (process pool zoneLookup (ComputeAction pool) allocateTarget
          removeTarget rebalanceTarget changeOk thisStoreID clockNow
          desc).changes →
      computeQuorum (desc.replicas.length - 1) ≤
        liveCount pool (desc.replicas.erase r) := by
  intro r hr
  cases zoneLookup with
  | none => simp [process] at hr
  | some zone =>
    by_cases hgate : desc.replicas.length -
        (deadReplicas pool desc.replicas).length <
        computeQuorum desc.replicas.length
    · simp [process, hgate] at hr
    · have hgate' : computeQuorum desc.replicas.length ≤
          desc.replicas.length - (deadReplicas pool desc.replicas).length :=
        Nat.not_lt.mp hgate
      cases hact : (ComputeAction pool zone desc).1 with
      | noop =>
        cases rebalanceTarget with
        | none => simp [process, hgate, hact] at hr
        | some s =>
          by_cases hc : changeOk .addReplica ⟨s.Node.NodeID, s.StoreID⟩ <;>
            simp [process, hgate, hact, hc] at hr
      | add =>
        cases allocateTarget with
        | none => simp [process, hgate, hact] at hr
        | some s =>
          by_cases hc : changeOk .addReplica ⟨s.Node.NodeID, s.StoreID⟩ <;>
            simp [process, hgate, hact, hc] at hr
      | remove =>
        cases hrt : removeTarget desc.replicas with
        | none => simp [process, hgate, hact, hrt] at hr
        | some rr =>
          have hrrmem := hremT rr hrt
          have hdead0 : (deadReplicas pool desc.replicas).length = 0 :=
            computeAction_remove_no_dead pool zone desc hgate' hact
          have hdeadnil : deadReplicas pool desc.replicas = [] :=
            List.length_eq_zero.mp hdead0
          have hlive : pool.isDead rr.storeID = false := by
            have hall := List.filter_eq_nil_iff.mp hdeadnil rr hrrmem
            simpa using hall
          have hreq : r = rr := by
            by_cases hc : changeOk .removeReplica rr
            · by_cases hs : rr.storeID = thisStoreID <;>
                · simp [process, hgate, hact, hrt, hc, hs] at hr
                  exact hr
            · simp [process, hgate, hact, hrt, hc] at hr
              exact hr
          subst hreq
          have h1 := liveCount_erase pool r desc.replicas hrrmem
          rw [hlive] at h1
          simp at h1
          have h2 := dead_add_live pool desc.replicas
          unfold computeQuorum at hgate' ⊢
          omega
      | removeDead =>
        cases hd : deadReplicas pool desc.replicas with
        | nil =>
          rw [hd] at hgate
          simp only [List.length_nil, Nat.sub_zero] at hgate
          simp [process, hgate, hact, hd] at hr
        | cons d ds =>
          have hdmem : d ∈ deadReplicas pool desc.replicas := by
            rw [hd]; exact List.mem_cons_self d ds
          have hdprops := deadReplicas_sublist pool desc.replicas d hdmem
          have hreq : r = d := by
            rw [hd] at hgate
            simp only [List.length_cons] at hgate
            by_cases hc : changeOk .removeReplica d <;>
              · simp [process, hgate, hact, hd, hc] at hr
                exact hr
          subst hreq
          have h1 := liveCount_erase pool r desc.replicas hdprops.1
          rw [hdprops.2] at h1
          simp at h1
          have h2 := dead_add_live pool desc.replicas
          have h3 : (deadReplicas pool desc.replicas).length = ds.length + 1 := by
            rw [hd]; rfl
          unfold computeQuorum at hgate' ⊢
          omega

/-- Claim C1, counterexample: with a single replica and a zone of desired
replication factor zero, `process` passes the quorum gate (1 live ≥
quorum(1) = 1) and issues a REMOVE of the sole replica, leaving 0 live
replicas, below the claim's bound (1-1)/2 + 1 = 1. -/
theorem C1_counterexample :
    (process ⟨fun _ => false⟩ (some ⟨[]⟩) (ComputeAction ⟨fun _ => false⟩)
        none (fun rs => rs.head?) none (fun _ _ => true) 99 0
        ⟨0, 1, [⟨1, 1⟩]⟩).changes = [(ChangeType.removeReplica, ⟨1, 1⟩)] ∧
    liveCount ⟨fun _ => false⟩ (([⟨1, 1⟩] : List Replica).erase ⟨1, 1⟩) <
      computeQuorum (1 - 1) := by
  decide

/-- Claim C1, witness: an over-replicated range (three replicas, desired
two, none dead) removes one replica and keeps 2 live replicas, at least
the after-removal quorum (3-1)/2 + 1 = 2. -/
theorem C1_witness :
    computeQuorum (3 - 1) ≤ liveCount ⟨fun _ => false⟩
      (([⟨1, 1⟩, ⟨2, 2⟩, ⟨3, 3⟩] : List Replica).erase ⟨1, 1⟩) :=
  C1_quorum_preserved ⟨fun _ => false⟩ (some ⟨[[], []]⟩) none
    (fun rs => rs.head?) none (fun _ _ => true) 9 0
    ⟨0, 1, [⟨1, 1⟩, ⟨2, 2⟩, ⟨3, 3⟩]⟩
    (by intro r h; simp at h; subst h; decide) (by decide) ⟨1, 1⟩
    (by decide)

/-- Wrapping is the identity on values inside the signed w-bit range. -/
lemma wrapInt_eq_self (w : Nat) (x : Int) (hw : 1 ≤ w)
    (h1 : -(2 ^ (w - 1)) ≤ x) (h2 : x < 2 ^ (w - 1)) : wrapInt w x = x := by
  unfold wrapInt
  have hsplit : (2 : Int) ^ w = 2 ^ (w - 1) * 2 := by
    conv_lhs => rw [show w = (w - 1) + 1 by omega]
    rw [pow_succ]
  have hnn : 0 ≤ x + 2 ^ (w - 1) := by linarith
  have hlt : x + 2 ^ (w - 1) < 2 ^ w := by rw [hsplit]; linarith
  rw [Int.emod_eq_of_lt hnn hlt]
  ring

/-- Claim C8, counterexample: at rangeCount = 2^31, the `int32` cast in
`getCapacity` wraps, so the published `RangeCount` is -(2^31), not the
rangeCount the claim demands. -/
theorem C8_counterexample :
    (gossipStore (newStore 5 ⟨2⟩) (2 ^ 31)).2.Capacity.RangeCount =
      -(2 ^ 31) ∧
    ((2 : Int) ^ 31 ≠ -(2 ^ 31)) := by
  decide

/-- Claim C8 (amended): for every rangeCount in the int32 range,
`gossipStore` publishes the store's own descriptor under the gossip key
built from its StoreID — a key constructor that is injective, so distinct
stores use distinct keys — with capacity recomputed as Capacity = 2^40,
Available = 2^40 - rangeCount * 2^26 and RangeCount = rangeCount. -/
theorem C8_gossipStore_publishes (s : Store) (rangeCount : Int)
    (h1 : -(2 ^ 31) ≤ rangeCount) (h2 : rangeCount < 2 ^ 31) :
    gossipStore s rangeCount =
      (MakeStoreKey s.desc.StoreID,
        { StoreID := s.desc.StoreID, Node := s.desc.Node,
          Capacity :=
            { Capacity := 2 ^ 40,
              Available := 2 ^ 40 - rangeCount * 2 ^ 26,
              RangeCount := rangeCount } }) ∧
    (∀ a b : Int, MakeStoreKey a = MakeStoreKey b → a = b) := by
  refine ⟨?_, fun a b h => congrArg GossipKey.storeKeyID h⟩
  have hb : bytesPerRange = (67108864 : Int) := by norm_num [bytesPerRange]
  have e1 : toInt64 (rangeCount * bytesPerRange) =
      rangeCount * bytesPerRange := by
    rw [hb]
    apply wrapInt_eq_self 64 _ (by norm_num)
    · norm_num
      linarith
    · norm_num
      linarith
  have e2 : toInt64 (capacityPerStore - rangeCount * bytesPerRange) =
      capacityPerStore - rangeCount * bytesPerRange := by
    rw [hb]
    apply wrapInt_eq_self 64 _ (by norm_num)
    · norm_num [capacityPerStore]
      linarith
    · norm_num [capacityPerStore]
      linarith
  have e3 : toInt32 rangeCount = rangeCount :=
    wrapInt_eq_self 32 rangeCount (by norm_num) h1 h2
  have ecap : getCapacity rangeCount =
      ⟨2 ^ 40, 2 ^ 40 - rangeCount * 2 ^ 26, rangeCount⟩ := by
    unfold getCapacity
    rw [e1, e2, e3]
    norm_num [capacityPerStore, bytesPerRange]
  show (MakeStoreKey s.desc.StoreID,
    { s.desc with Capacity := getCapacity rangeCount }) = _
  rw [ecap]

/-- Claim C8, witness: a store with ID 5 on node 2 holding 10 ranges
publishes under its own key with the recomputed capacity. -/
theorem C8_witness :
    gossipStore (newStore 5 ⟨2⟩) 10 =
      (MakeStoreKey 5,
        { StoreID := 5, Node := ⟨2⟩,
          Capacity :=
            { Capacity := 2 ^ 40,
              Available := 2 ^ 40 - 10 * 2 ^ 26,
              RangeCount := 10 } }) :=
  (C8_gossipStore_publishes (newStore 5 ⟨2⟩) 10 (by norm_num)
    (by norm_num)).1

end Crdb
